import Mathlib

/-!
Verification of the request-routing and middleware-dispatch subsystem of a
minimal concurrent HTTP server (source: src/server/mod.rs).

Strings from the Rust code (paths, methods, patterns, error messages) are
modelled as lists of characters; Rust `HashMap` registries are modelled as
association lists in iteration order (the iteration order of a Rust HashMap
is unspecified, so an arbitrary list order is a faithful model of one
possible order); fallible operations return `Except`.  The locking behaviour
of `RwLock::try_read` is modelled by an explicit Boolean saying whether the
lock acquisition succeeded, and binding the TCP listener is modelled by an
explicit predicate saying whether the bind succeeded.
-/

namespace RustyServer


/-- Rust `String`, modelled as a list of characters. -/
abbrev Str := List Char

/-- Parameter mapping (`HashMap<String, String>`) bound by route matching,
in iteration order. -/
abbrev Params := List (Str × Str)

/-- Modelled from the spec: `request.rs` is not under src/.  Per spec section 3
a Request carries a method, the full route string, and an optional params
mapping that is only populated after a successful match (so it starts `none`). -/
structure Request where
  method : Str
  route : Str
  params : Option Params

/-- Modelled from the spec: `response.rs` is not under src/.  A Response owns one
connection and is mutated by handlers; we model it as the ordered list of
chunks written so far. -/
abbrev Response := List Str

/-- Modelled from the spec: a middleware handler is callable with
(request, mutable response, MiddlewareSession); it may rewrite the response and
reports a continue (`true`) / stop (`false`) decision through its session. -/
abbrev Handler := Request → Response → Response × Bool

/-- Modelled from the spec: `session.rs` is not under src/.  A `Session` is the
chain-level object returned by a route match; its `then` field (here
`thenChain`) holds the middleware handlers in registration order. -/
structure Session where
  thenChain : List Handler

/-- Modelled from the spec: `router.rs` is not under src/.  A Router owns one
mount point's route table keyed by (HTTP method, path pattern), each entry
carrying the middleware chain for that route. -/
structure Router where
  routes : List (Str × Str × Session)

/-- Error kind of `std::io::Error` as used by the source (`ErrorKind::NotFound`). -/
inductive ErrKind
  | notFound
  deriving DecidableEq

/-- `std::io::Error` as used by the source: a kind plus a message. -/
abbrev Err := ErrKind × Str

/-- The error value `Error::new(ErrorKind::NotFound, "404")` built in find_route. -/
def err404 : Err := (ErrKind.notFound, "404".data)

/-- Splitting a path into `/`-separated segments (used by the modelled Router). -/
def splitSegs : Str → List Str
  | [] => [[]]
  | c :: rest =>
    if c = '/' then [] :: splitSegs rest
    else
      match splitSegs rest with
      | [] => [[c]]
      | seg :: segs => (c :: seg) :: segs

/-- Modelled from the spec (section 4.2): match pattern segments against path
segments.  A literal segment must match exactly; a segment starting with the
parameter marker `:` binds the path segment under the parameter's name.
Matching is full-path: both segment lists must be exhausted together. -/
def matchSegs : List Str → List Str → Option Params
  | [], [] => some []
  | pat :: pats, seg :: segs =>
    match pat with
    | ':' :: name => (matchSegs pats segs).map (fun ps => (name, seg) :: ps)
    | _ => if pat = seg then matchSegs pats segs else none
  | _, _ => none

/-- Modelled from the spec: scan the route table for the first entry whose
method equals the request method and whose pattern matches the path. -/
def routerFindAux : List (Str × Str × Session) → Str → Str → Except Err (Session × Params)
  | [], _, _ => Except.error err404
  | (m, pat, sess) :: rest, method, path =>
    if m = method then
      match matchSegs (splitSegs pat) (splitSegs path) with
      | some params => Except.ok (sess, params)
      | none => routerFindAux rest method path
    else routerFindAux rest method path

/-- Modelled from the spec: `Router::find_route` (router.rs is not under src/)
returns the matched route's chain and bound params, or NotFound. -/
def Router.findRoute (r : Router) (method path : Str) : Except Err (Session × Params) :=
  routerFindAux r.routes method path

/-- Rust `str::trim_left`: remove leading whitespace characters. -/
def trimLeft (s : Str) : Str := s.dropWhile (fun c => c.isWhitespace)

/-- Fuel-driven worker for `trimLeftMatches`; each step strips one leading
occurrence of the pattern `p`.  Fuel `s.length` always suffices because each
strip removes at least one character when `p` is nonempty. -/
def trimGo (p : Str) : Nat → Str → Str
  | 0, s => s
  | fuel + 1, s =>
    if !p.isEmpty && p.isPrefixOf s then trimGo p fuel (s.drop p.length)
    else s

/-- Rust `str::trim_left_matches(p)`: repeatedly strip the pattern `p` from the
front of `s` while `s` starts with `p` (for the empty pattern the string is
returned unchanged, as in Rust). -/
def trimLeftMatches (p s : Str) : Str := trimGo p s.length s

/-- `Server::register` path normalization: the mount path `"/"` becomes the
empty prefix, every other path is kept as is (mod.rs lines 43-49). -/
def normalize (path : Str) : Str := if path = "/".data then [] else path

/-- `HashMap::insert` on the association-list model: replace the value of an
existing key, otherwise add the new binding. -/
def insertHash : List (Str × Router) → Str → Router → List (Str × Router)
  | [], k, v => [(k, v)]
  | (k0, v0) :: rest, k, v =>
    if k0 = k then (k, v) :: rest else (k0, v0) :: insertHash rest k v

/-- `Server::register` (mod.rs lines 40-54): normalize the mount path and
insert the router into the registry under the write lock. -/
def register (reg : List (Str × Router)) (path : Str) (router : Router) :
    List (Str × Router) :=
  insertHash reg (normalize path) router

/-- `HashMap` lookup on the association-list model: value of the first entry
with the given key. -/
def lookupReg : List (Str × Router) → Str → Option Router
  | [], _ => none
  | (k0, v) :: rest, k => if k0 = k then some v else lookupReg rest k

/-- The prefix-scanning loop of `Server::find_route` (mod.rs lines 131-143):
for each registered (prefix, router) in iteration order, if the
whitespace-trimmed path starts with the prefix, delegate to that router with
`trim_left_matches(prefix)` applied to the path, propagating the router's
result (the `?` operator returns the router's error immediately); otherwise
keep scanning.  An exhausted registry yields NotFound "404". -/
def findRouteAux : List (Str × Router) → Str → Str → Except Err (Session × Params)
  | [], _, _ => Except.error err404
  | (routing, router) :: rest, method, path =>
    if routing.isPrefixOf (trimLeft path) then
      router.findRoute method (trimLeftMatches routing path)
    else findRouteAux rest method path

/-- `Server::find_route` (mod.rs lines 117-144).  `lockOk` models whether
`try_read` on the registry lock succeeded; on failure the source returns
`Error::new(ErrorKind::NotFound, "404")`. -/
def findRoute (lockOk : Bool) (reg : List (Str × Router)) (method path : Str) :
    Except Err (Session × Params) :=
  if lockOk then findRouteAux reg method path else Except.error err404

/-- One recorded middleware invocation: which handler ran (`idx`), the identity
of the channel created for its MiddlewareSession (`sessionId`, fresh per loop
iteration), and the Boolean the handler sent through that session. -/
structure Invocation where
  idx : Nat
  sessionId : Nat
  signal : Bool
  deriving DecidableEq

/-- The middleware loop of `parse_incoming` (mod.rs lines 75-79), instrumented
with a trace: for each handler in order, a fresh channel/session is created and
the handler is called with the request and the current response.  The signal
the handler sends is recorded in the trace but — exactly as in the source,
where `revc` is never read — it does not influence whether the loop continues. -/
def runChainFrom (req : Request) : Nat → List Handler → Response → Response × List Invocation
  | _, [], resp => (resp, [])
  | i, h :: hs, resp =>
    ((runChainFrom req (i + 1) hs (h req resp).1).1,
      { idx := i, sessionId := i, signal := (h req resp).2 } ::
        (runChainFrom req (i + 1) hs (h req resp).1).2)

/-- The middleware loop of `parse_incoming`, started at handler 0. -/
def runChain (chain : List Handler) (req : Request) (resp : Response) :
    Response × List Invocation :=
  runChainFrom req 0 chain resp

/-- `Server::parse_incoming` (mod.rs lines 57-91) after a successful request
parse: resolve the route, set `request.params` to the bound params only when
the mapping is nonempty (lines 62-64), create the response for the connection,
and run the matched middleware chain.  Returns the final request, the final
response and the invocation trace. -/
def parseIncoming (lockOk : Bool) (reg : List (Str × Router)) (method route : Str) :
    Except Err (Request × Response × List Invocation) :=
  match findRoute lockOk reg method route with
  | Except.error e => Except.error e
  | Except.ok (sess, params) =>
    let req0 : Request := { method := method, route := route, params := none }
    let req := if params.length > 0 then { req0 with params := some params } else req0
    let run := runChain sess.thenChain req []
    Except.ok (req, run.1, run.2)

/-- The default listen address (mod.rs line 150). -/
def loopback : Str := "127.0.0.1".data

/-- Result of `Server::listen`: either the process aborted with a diagnostic
(`expect` panicking on a failed bind) or it is serving on an address and port
with a worker pool of the given size. -/
inductive ListenOutcome
  | panicked (msg : Str)
  | serving (addr : Str) (port : Int) (workers : Nat)
  deriving DecidableEq

/-- `Server::listen` (mod.rs lines 149-153) up to entering the accept loop.
`bindOk` models whether `TcpListener::bind` succeeds on the given address and
port.  The address defaults to `127.0.0.1`, the thread count defaults to 4, and
a failed bind panics with the message `Couldn't bind on port!`. -/
def listen (bindOk : Str → Int → Bool) (port : Int) (address : Option Str)
    (threads : Option Nat) : ListenOutcome :=
  let addr := address.getD "127.0.0.1".data
  if bindOk addr port then ListenOutcome.serving addr port (threads.getD 4)
  else ListenOutcome.panicked "Couldn't bind on port!".data

/-- Follows the spec's words for claim C2: the first registered (prefix, router)
pair, in registry iteration order, whose prefix is a prefix of the given
(trimmed) path. -/
def firstMatch : List (Str × Router) → Str → Option (Str × Router)
  | [], _ => none
  | (routing, router) :: rest, t =>
    if routing.isPrefixOf t then some (routing, router) else firstMatch rest t

/-- Follows the spec's words for claim C4: the remainder obtained by stripping
exactly one occurrence of `p` from the front of `s` (when `s` starts with `p`). -/
def stripOnce (p s : Str) : Str := if p.isPrefixOf s then s.drop p.length else s

/-- `k`-fold repetition of a string, used to state what `trim_left_matches`
removed. -/
def repeatStr (p : Str) : Nat → Str
  | 0 => []
  | k + 1 => p ++ repeatStr p k

/-- Follows the spec's words for claim C7: the router of the last registration
whose normalized mount path equals the given normalized prefix. -/
def specLastWins : List (Str × Router) → Str → Option Router
  | [], _ => none
  | op :: rest, k =>
    match specLastWins rest k with
    | some r => some r
    | none => if normalize op.1 = k then some op.2 else none

/-- A sequence of `register` calls applied to the initially empty registry. -/
def registerAll (ops : List (Str × Router)) : List (Str × Router) :=
  ops.foldl (fun reg op => register reg op.1 op.2) []

/-- A handler that writes nothing and signals continue through its session. -/
def contHandler : Handler := fun _ resp => (resp, true)

/-- A handler that writes nothing and signals stop through its session. -/
def stopHandler : Handler := fun _ resp => (resp, false)

/-- A one-handler middleware chain. -/
def sess1 : Session := ⟨[contHandler]⟩

/-- A two-handler middleware chain, distinguishable from `sess1` by length. -/
def sess2 : Session := ⟨[contHandler, contHandler]⟩

/-- A router mounted at the empty prefix serving GET /api/users/42 with `sess1`. -/
def rootRouter : Router := ⟨[("GET".data, "/api/users/42".data, sess1)]⟩

/-- A router intended for the mount prefix /api, serving GET /users/42 with `sess2`. -/
def apiRouter : Router := ⟨[("GET".data, "/users/42".data, sess2)]⟩

/-- A registry whose iteration order lists the empty prefix before /api. -/
def overlapReg : List (Str × Router) := [([], rootRouter), ("/api".data, apiRouter)]

/-- A router with routes for both GET /a/b (chain `sess1`) and GET /b (chain `sess2`). -/
def dupRouter : Router := ⟨[("GET".data, "/a/b".data, sess1), ("GET".data, "/b".data, sess2)]⟩

/-- A registry with the single mount prefix /a. -/
def reg4 : List (Str × Router) := [("/a".data, dupRouter)]

/-- A registry with the single mount prefix /api. -/
def apiOnlyReg : List (Str × Router) := [("/api".data, apiRouter)]

/-- A chain of two handlers that both signal continue. -/
def contChain : List Handler := [contHandler, contHandler]

/-- A concrete request used by dispatch examples. -/
def demoRequest : Request := { method := "GET".data, route := "/".data, params := none }



theorem isPrefixOf_exists {p s : Str} (h : p.isPrefixOf s = true) : ∃ t, s = p ++ t := by
  induction p generalizing s with
  | nil => exact ⟨s, rfl⟩
  | cons c cs ih =>
    cases s with
    | nil => simp [List.isPrefixOf] at h
    | cons d ds =>
      simp only [List.isPrefixOf, Bool.and_eq_true, beq_iff_eq] at h
      obtain ⟨t, ht⟩ := ih h.2
      exact ⟨t, by rw [h.1, ht]; rfl⟩

theorem trimGo_spec (p : Str) (hp : p ≠ []) :
    ∀ (fuel : Nat) (s : Str), s.length ≤ fuel →
      (∃ k, s = repeatStr p k ++ trimGo p fuel s) ∧ p.isPrefixOf (trimGo p fuel s) = false := by
  intro fuel
  induction fuel with
  | zero =>
    intro s hs
    have hnil : s = [] := List.length_eq_zero.mp (Nat.le_zero.mp hs)
    subst hnil
    refine ⟨⟨0, rfl⟩, ?_⟩
    cases p with
    | nil => exact absurd rfl hp
    | cons c cs => rfl
  | succ fuel ih =>
    intro s hs
    cases hpre : p.isPrefixOf s with
    | false =>
      have hcond : (!p.isEmpty && p.isPrefixOf s) = false := by
        rw [hpre, Bool.and_false]
      rw [trimGo, hcond]
      exact ⟨⟨0, rfl⟩, by simpa using hpre⟩
    | true =>
      have hne : p.isEmpty = false := by
        cases p with
        | nil => exact absurd rfl hp
        | cons c cs => rfl
      have hcond : (!p.isEmpty && p.isPrefixOf s) = true := by
        rw [hpre, hne]; rfl
      obtain ⟨t, ht⟩ := isPrefixOf_exists hpre
      have hdrop : s.drop p.length = t := by rw [ht]; exact List.drop_left p t
      have hlen : t.length ≤ fuel := by
        have hplen : 0 < p.length := List.length_pos.mpr hp
        have : s.length = p.length + t.length := by rw [ht, List.length_append]
        omega
      obtain ⟨⟨k, hk⟩, hnopre⟩ := ih t hlen
      rw [trimGo, hcond, hdrop]
      refine ⟨⟨k + 1, ?_⟩, hnopre⟩
      rw [ht]
      conv_lhs => rw [hk]
      simp [repeatStr, List.append_assoc]

theorem findRouteAux_eq_firstMatch (reg : List (Str × Router)) (method path : Str) :
    findRouteAux reg method path =
      match firstMatch reg (trimLeft path) with
      | none => Except.error err404
      | some pr => pr.2.findRoute method (trimLeftMatches pr.1 path) := by
  induction reg with
  | nil => rfl
  | cons hd tl ih =>
    obtain ⟨routing, router⟩ := hd
    cases hpre : routing.isPrefixOf (trimLeft path) with
    | false => simp [findRouteAux, firstMatch, hpre, ih]
    | true => simp [findRouteAux, firstMatch, hpre]

theorem findRouteAux_noMatch (reg : List (Str × Router)) (method path : Str)
    (h : ∀ pr ∈ reg, pr.1.isPrefixOf (trimLeft path) = false) :
    findRouteAux reg method path = Except.error err404 := by
  induction reg with
  | nil => rfl
  | cons hd tl ih =>
    obtain ⟨routing, router⟩ := hd
    have hhd : routing.isPrefixOf (trimLeft path) = false := h (routing, router) (List.mem_cons_self _ _)
    simp only [findRouteAux, hhd]
    simp only [Bool.false_eq_true, if_false]
    exact ih (fun pr hpr => h pr (List.mem_cons_of_mem _ hpr))

theorem runChainFrom_trace (req : Request) :
    ∀ (hs : List Handler) (i : Nat) (resp : Response),
      ((runChainFrom req i hs resp).2.map (fun inv => inv.idx) = List.range' i hs.length)
      ∧ ((runChainFrom req i hs resp).2.map (fun inv => inv.sessionId) = List.range' i hs.length) := by
  intro hs
  induction hs with
  | nil => intro i resp; exact ⟨rfl, rfl⟩
  | cons h t ih =>
    intro i resp
    have hrec := ih (i + 1) (h req resp).1
    simp only [runChainFrom, List.map_cons, List.length_cons, List.range'_succ]
    exact ⟨by rw [hrec.1], by rw [hrec.2]⟩

theorem lookup_insert (m : List (Str × Router)) (k0 : Str) (v : Router) (k : Str) :
    lookupReg (insertHash m k0 v) k = if k0 = k then some v else lookupReg m k := by
  induction m with
  | nil => rfl
  | cons hd rest ih =>
    obtain ⟨a, w⟩ := hd
    by_cases hak : a = k0
    · subst hak
      simp only [insertHash, if_pos rfl, lookupReg]
      by_cases hk : a = k <;> simp [hk]
    · simp only [insertHash, if_neg hak]
      by_cases hk : a = k
      · subst hk
        have : ¬ k0 = a := fun hc => hak hc.symm
        simp [lookupReg, this]
      · simp [lookupReg, hk, ih]

theorem lookupReg_foldl (ops : List (Str × Router)) :
    ∀ (acc : List (Str × Router)) (k : Str),
      lookupReg (ops.foldl (fun reg op => register reg op.1 op.2) acc) k =
        match specLastWins ops k with
        | some r => some r
        | none => lookupReg acc k := by
  induction ops with
  | nil => intro acc k; rfl
  | cons op rest ih =>
    intro acc k
    rw [List.foldl_cons, ih]
    cases hl : specLastWins rest k with
    | some r => simp [specLastWins, hl]
    | none =>
      simp only [specLastWins, hl]
      rw [register, lookup_insert]
      by_cases hn : normalize op.1 = k <;> simp [hn]


/-- Claim C1 (code bug evidence): the dispatch loop of `parse_incoming` creates a
signal channel per handler but never reads it, so on the chain
[stopHandler, contHandler] the trace shows handler 0 signalling stop (`false`)
and handler 1 nevertheless being invoked afterwards — the chain is not
terminated after a stop signal, contradicting the specified contract. -/
theorem C1_handlerAfterStopStillRuns :
    (runChain [stopHandler, contHandler] demoRequest []).2.map
      (fun inv => (inv.idx, inv.signal)) = [(0, false), (1, true)] := rfl

/-- Counterexample to claim C2 as stated: in a registry whose iteration order
lists the empty prefix before /api, the request GET /api/users/42 is resolved
through the router mounted at the empty prefix (its chain has length 1), even
though /api is a strictly longer registered prefix that also matches the path
and whose router resolves the stripped remainder successfully (chain length 2).
So a shorter also-matching prefix is chosen over a longer one. -/
theorem C2_counterexample :
    (findRoute true overlapReg "GET".data "/api/users/42".data).toOption.map
        (fun x => x.1.thenChain.length) = some 1
    ∧ "/api".data.isPrefixOf (trimLeft "/api/users/42".data) = true
    ∧ ([] : Str).length < "/api".data.length
    ∧ (apiRouter.findRoute "GET".data
          (trimLeftMatches "/api".data "/api/users/42".data)).toOption.map
        (fun x => x.1.thenChain.length) = some 2 :=
  ⟨rfl, by decide, by decide, rfl⟩

/-- Claim C2 (amended): resolution selects the Router of the first registered
prefix in the registry's iteration order for which the (whitespace-trimmed)
request path starts with that prefix, delegating the path with all leading
occurrences of that prefix stripped; with overlapping prefixes this first match
may be a shorter prefix than another matching one. -/
theorem C2_firstMatchSelection (reg : List (Str × Router)) (method path : Str) :
    findRoute true reg method path =
      match firstMatch reg (trimLeft path) with
      | none => Except.error err404
      | some pr => pr.2.findRoute method (trimLeftMatches pr.1 path) :=
  findRouteAux_eq_firstMatch reg method path

/-- Claim C3 (code bug evidence): when acquiring read access to the registry
fails, `find_route` returns exactly `Error::new(ErrorKind::NotFound, "404")` —
the same NotFound error as a missing route, not a 503-equivalent transient
error distinct from NotFound (and the caller in `listen` discards
`parse_incoming`'s error, so no response is written at all). -/
theorem C3_lockFailureIs404 (reg : List (Str × Router)) (method path : Str) :
    findRoute false reg method path = Except.error (ErrKind.notFound, "404".data) := rfl

/-- Counterexample to claim C4 as stated: for the registered prefix /a and the
request path /a/a/b, the remainder handed to the router's matcher is not the
result of stripping exactly one occurrence of the prefix (/a/b) but the result
of stripping every leading occurrence (/b): the code resolves to the route
registered under /b (chain length 2), while the matcher applied to the
single-strip remainder would resolve /a/b (chain length 1). -/
theorem C4_counterexample :
    trimLeftMatches "/a".data "/a/a/b".data ≠ stripOnce "/a".data "/a/a/b".data
    ∧ (findRoute true reg4 "GET".data "/a/a/b".data).toOption.map
        (fun x => x.1.thenChain.length) = some 2
    ∧ (dupRouter.findRoute "GET".data (stripOnce "/a".data "/a/a/b".data)).toOption.map
        (fun x => x.1.thenChain.length) = some 1 :=
  ⟨by decide, rfl, rfl⟩

/-- Claim C4 (amended): for every registered nonempty prefix P selected for a
request path, the path handed to that Router's matcher is the remainder
obtained by stripping every leading occurrence of P from the front of the path
(the path equals some k-fold repetition of P followed by the remainder, and the
remainder no longer starts with P) — not exactly one occurrence. -/
theorem C4_stripAllOccurrences (reg : List (Str × Router)) (method path p : Str) (r : Router)
    (hsel : firstMatch reg (trimLeft path) = some (p, r)) (hp : p ≠ []) :
    findRoute true reg method path = r.findRoute method (trimLeftMatches p path)
    ∧ (∃ k, path = repeatStr p k ++ trimLeftMatches p path)
    ∧ p.isPrefixOf (trimLeftMatches p path) = false := by
  have heq := findRouteAux_eq_firstMatch reg method path
  rw [hsel] at heq
  have hchar := trimGo_spec p hp path.length path (Nat.le_refl _)
  exact ⟨heq, hchar.1, hchar.2⟩

/-- Witness for claim C4's amended theorem at the prefix /a and path /a/a/b. -/
theorem C4_stripAllOccurrences_witness :
    firstMatch reg4 (trimLeft "/a/a/b".data) = some ("/a".data, dupRouter)
    ∧ "/a".data ≠ []
    ∧ (findRoute true reg4 "GET".data "/a/a/b".data =
          dupRouter.findRoute "GET".data (trimLeftMatches "/a".data "/a/a/b".data)
      ∧ (∃ k, "/a/a/b".data = repeatStr "/a".data k ++ trimLeftMatches "/a".data "/a/a/b".data)
      ∧ "/a".data.isPrefixOf (trimLeftMatches "/a".data "/a/a/b".data) = false) :=
  ⟨rfl, by decide,
    C4_stripAllOccurrences reg4 "GET".data "/a/a/b".data "/a".data dupRouter rfl (by decide)⟩

/-- Claim C5: for every request path for which no registered mount prefix is a
prefix of the (whitespace-trimmed) path — the comparison `find_route` performs;
request paths contain no leading whitespace, so trimming is the identity on
them — resolution returns the NotFound/404 error, never a partial match, and
being a total function it cannot crash. -/
theorem C5_noPrefixNotFound (reg : List (Str × Router)) (method path : Str)
    (h : ∀ pr ∈ reg, pr.1.isPrefixOf (trimLeft path) = false) :
    findRoute true reg method path = Except.error err404 :=
  findRouteAux_noMatch reg method path h

/-- Witness for claim C5 on a registry mounting only /api and the path /nope. -/
theorem C5_noPrefixNotFound_witness :
    (∀ pr ∈ apiOnlyReg, pr.1.isPrefixOf (trimLeft "/nope".data) = false)
    ∧ findRoute true apiOnlyReg "GET".data "/nope".data = Except.error err404 :=
  ⟨by decide, C5_noPrefixNotFound apiOnlyReg "GET".data "/nope".data (by decide)⟩

/-- Claim C6: when every handler of the matched chain signals continue, the
dispatch loop invokes every handler exactly once, in registration order (the
trace of invoked indices is exactly 0, 1, ..., n-1), each invocation receiving
the request, the current response, and a MiddlewareSession built from a fresh
channel (all recorded session identities are pairwise distinct). -/
theorem C6_allContinueRunsAll (chain : List Handler) (req : Request) (resp : Response)
    (_hcont : ∀ h ∈ chain, ∀ q r, (h q r).2 = true) :
    (runChain chain req resp).2.map (fun inv => inv.idx) = List.range chain.length
    ∧ ((runChain chain req resp).2.map (fun inv => inv.sessionId)).Nodup
    ∧ (runChain chain req resp).2.length = chain.length := by
  have h := runChainFrom_trace req chain 0 resp
  refine ⟨?_, ?_, ?_⟩
  · rw [List.range_eq_range']
    exact h.1
  · show ((runChainFrom req 0 chain resp).2.map (fun inv => inv.sessionId)).Nodup
    rw [h.2]
    exact List.nodup_range' 0 chain.length
  · have h3 := congrArg List.length h.1
    simpa using h3

/-- Witness for claim C6 on a two-handler chain of continue-signalling handlers. -/
theorem C6_allContinueRunsAll_witness :
    (∀ h ∈ contChain, ∀ q r, (h q r).2 = true)
    ∧ ((runChain contChain demoRequest []).2.map (fun inv => inv.idx) =
          List.range contChain.length
      ∧ ((runChain contChain demoRequest []).2.map (fun inv => inv.sessionId)).Nodup
      ∧ (runChain contChain demoRequest []).2.length = contChain.length) := by
  have hcont : ∀ h ∈ contChain, ∀ q r, (h q r).2 = true := by
    intro h hm q r
    fin_cases hm <;> rfl
  exact ⟨hcont, C6_allContinueRunsAll contChain demoRequest [] hcont⟩

/-- Claim C7: `register` normalizes the mount path "/" to the empty prefix
(registering under "/" and under the empty string are the same operation), and
after any sequence of registrations starting from the empty registry, looking
up a normalized prefix yields exactly the router of the last registration whose
normalized mount path equals it — later registrations replace earlier ones. -/
theorem C7_lastRegistrationWins :
    (∀ (ops : List (Str × Router)) (p : Str),
      lookupReg (registerAll ops) (normalize p) = specLastWins ops (normalize p))
    ∧ (∀ (reg : List (Str × Router)) (router : Router),
      register reg "/".data router = register reg [] router) := by
  constructor
  · intro ops p
    have h := lookupReg_foldl ops [] (normalize p)
    cases hl : specLastWins ops (normalize p) with
    | some r => rw [hl] at h; exact h
    | none => rw [hl] at h; exact h
  · intro reg router
    have h1 : normalize "/".data = normalize [] := by decide
    simp only [register]
    rw [h1]

/-- Claim C8: if binding the listening socket fails, `listen` aborts by
panicking with the diagnostic message `Couldn't bind on port!`; with no address
argument the address consulted and served is the loopback address 127.0.0.1,
and with no worker-count argument the pool size is 4. -/
theorem C8_listenDefaults (bindOk : Str → Int → Bool) (port : Int) :
    (bindOk loopback port = false →
      listen bindOk port none none = ListenOutcome.panicked "Couldn't bind on port!".data)
    ∧ (bindOk loopback port = true →
      listen bindOk port none none = ListenOutcome.serving loopback port 4) := by
  constructor
  · intro h
    simp only [loopback] at h
    simp [listen, h]
  · intro h
    simp only [loopback] at h
    simp [listen, h, loopback]

/-- Witness for claim C8 with an always-failing and an always-succeeding bind. -/
theorem C8_listenDefaults_witness :
    listen (fun _ _ => false) 8080 none none =
      ListenOutcome.panicked "Couldn't bind on port!".data
    ∧ listen (fun _ _ => true) 8080 none none = ListenOutcome.serving loopback 8080 4 :=
  ⟨(C8_listenDefaults (fun _ _ => false) 8080).1 rfl,
    (C8_listenDefaults (fun _ _ => true) 8080).2 rfl⟩

/-- Claim C9: when the route resolves, the dispatched request's params field is
`some params` exactly when the bound params mapping is nonempty; when the route
binds no parameters the field keeps the `none` it was constructed with, not
`some` of an empty mapping. -/
theorem C9_paramsOnlyWhenNonempty (reg : List (Str × Router)) (method route : Str)
    (sess : Session) (params : Params)
    (h : findRoute true reg method route = Except.ok (sess, params)) :
    (parseIncoming true reg method route).toOption.map (fun out => out.1.params) =
      some (if params.length > 0 then some params else none) := by
  simp only [parseIncoming, h]
  by_cases hp : params.length > 0
  · simp [hp, Except.toOption]
  · simp [hp, Except.toOption]

/-- Witness for claim C9 on a route that resolves with an empty params mapping:
the request's params field stays `none`. -/
theorem C9_paramsOnlyWhenNonempty_witness :
    findRoute true overlapReg "GET".data "/api/users/42".data = Except.ok (sess1, ([] : Params))
    ∧ (parseIncoming true overlapReg "GET".data "/api/users/42".data).toOption.map
        (fun out => out.1.params) =
      some (if ([] : Params).length > 0 then some ([] : Params) else none) :=
  ⟨rfl, C9_paramsOnlyWhenNonempty overlapReg "GET".data "/api/users/42".data sess1 [] rfl⟩

/-- Claim C10: registering a router under mount path P leaves every registry
key other than the normalization of P untouched — looking up any other key
returns exactly what it returned before the call. -/
theorem C10_registerFrame (reg : List (Str × Router)) (path : Str) (router : Router)
    (k : Str) (h : k ≠ normalize path) :
    lookupReg (register reg path router) k = lookupReg reg k := by
  have hi := lookup_insert reg (normalize path) router k
  have hne : ¬ normalize path = k := fun hc => h hc.symm
  rw [if_neg hne] at hi
  exact hi

/-- Witness for claim C10: registering under /x does not disturb the entry /y. -/
theorem C10_registerFrame_witness :
    "/y".data ≠ normalize "/x".data
    ∧ lookupReg (register apiOnlyReg "/x".data rootRouter) "/y".data =
        lookupReg apiOnlyReg "/y".data :=
  ⟨by decide, C10_registerFrame apiOnlyReg "/x".data rootRouter "/y".data (by decide)⟩


end RustyServer
